import Mathlib

set_option maxRecDepth 4000

/-!
Verification of the collaborative-whiteboard synchronization core: a relay
server holding a bounded FIFO history of drawing actions, and a canvas client
with an action interpreter, snapshot-based local undo/redo and a re-entrancy
guard against feedback loops.  Server state and handlers are embedded from the
socket server; client state and handlers from the Canvas component.  The
raster surface is external: its operations are recorded as an explicit trace,
and the few semantic facts needed about it (compositing of a covered pixel,
path operations ignoring missing coordinates) are modelled separately.
-/

/-- One drawing action as exchanged on the wire: a JS object whose fields may
all be absent.  Absent fields are `none`; numeric values are modelled as `Int`. -/
structure ActionData where
  type : Option String := none
  x : Option Int := none
  y : Option Int := none
  width : Option Int := none
  height : Option Int := none
  radius : Option Int := none
  color : Option String := none
  lineWidth : Option Int := none
  tool : Option String := none
  text : Option String := none
  font : Option String := none
deriving Repr, DecidableEq

/-- JS `a || b` for a possibly-absent string field: `undefined` and the empty
string are falsy. -/
def jsOrStr (v : Option String) (d : String) : String :=
  match v with
  | none => d
  | some s => if s = "" then d else s

/-- JS `a || b` for a possibly-absent numeric field: `undefined` and `0` are
falsy. -/
def jsOrInt (v : Option Int) (d : Int) : Int :=
  match v with
  | none => d
  | some n => if n = 0 then d else n

/-! ### Relay server -/

/-- Capacity of the server history (`MAX_HISTORY_LENGTH` in the server). -/
def MAX_HISTORY_LENGTH : Nat := 200

/-- The clear action the server synthesizes in its `clear-canvas` handler. -/
def clearAction : ActionData := { type := some "clear" }

/-- Push one action onto the history, then shift the oldest entry off when the
capacity is exceeded — the two statements shared by the `drawing-action` and
`clear-canvas` handlers. -/
def appendToHistory (h : List ActionData) (a : ActionData) : List ActionData :=
  if MAX_HISTORY_LENGTH < (h ++ [a]).length then (h ++ [a]).drop 1 else h ++ [a]

/-- Server state: the module-level action history plus the currently connected
sessions (socket ids, modelled as `Nat`). -/
structure ServerState where
  drawingActionsHistory : List ActionData
  sessions : List Nat
deriving Repr, DecidableEq

/-- The server starts with an empty history and no connected session. -/
def initialServerState : ServerState := { drawingActionsHistory := [], sessions := [] }

/-- Inbound events the server reacts to: a new connection, a `drawing-action`
message, a `clear-canvas` message, a disconnect. -/
inductive ServerEvent
  | connect (sid : Nat)
  | drawingAction (sid : Nat) (data : ActionData)
  | clearCanvas (sid : Nat)
  | disconnect (sid : Nat)
deriving Repr, DecidableEq

/-- Payload of a server-to-client message: the replay of the history sent to a
new session, or one relayed drawing action. -/
inductive MsgPayload
  | initialDrawingHistory (actions : List ActionData)
  | drawingActionMsg (data : ActionData)
deriving Repr, DecidableEq

/-- One server-to-client message with its recipient session. -/
structure ServerMsg where
  recipient : Nat
  payload : MsgPayload
deriving Repr, DecidableEq

/-- One step of the server: the next state and the messages emitted while
handling the event.  `connect` replays the history to the new session alone
when it is non-empty; the two message handlers append to the history (with
eviction) and emit to every connected session other than the sender
(`socket.broadcast.emit`); `disconnect` frees the session. -/
def serverStep (st : ServerState) : ServerEvent → ServerState × List ServerMsg
  | .connect sid =>
    ({ st with sessions := st.sessions ++ [sid] },
     if 0 < st.drawingActionsHistory.length then
       [{ recipient := sid, payload := .initialDrawingHistory st.drawingActionsHistory }]
     else [])
  | .drawingAction sid d =>
    ({ st with drawingActionsHistory := appendToHistory st.drawingActionsHistory d },
     (st.sessions.filter (fun s => s != sid)).map
       (fun s => { recipient := s, payload := .drawingActionMsg d }))
  | .clearCanvas sid =>
    ({ st with drawingActionsHistory := appendToHistory st.drawingActionsHistory clearAction },
     (st.sessions.filter (fun s => s != sid)).map
       (fun s => { recipient := s, payload := .drawingActionMsg clearAction }))
  | .disconnect sid =>
    ({ st with sessions := st.sessions.filter (fun s => s != sid) }, [])

/-- Run the server over a sequence of events, keeping only the state. -/
def serverRun (st : ServerState) (es : List ServerEvent) : ServerState :=
  es.foldl (fun s e => (serverStep s e).1) st

/-! ### History lemmas -/

theorem appendToHistory_length_le (h : List ActionData) (a : ActionData)
    (hh : h.length ≤ MAX_HISTORY_LENGTH) :
    (appendToHistory h a).length ≤ MAX_HISTORY_LENGTH := by
  by_cases hc : MAX_HISTORY_LENGTH < (h ++ [a]).length
  · rw [appendToHistory, if_pos hc, List.length_drop]
    simp only [List.length_append, List.length_cons, List.length_nil] at hc ⊢
    omega
  · rw [appendToHistory, if_neg hc]
    simp only [List.length_append, List.length_cons, List.length_nil] at hc ⊢
    omega

theorem appendToHistory_eq_drop (h : List ActionData) (a : ActionData)
    (hh : h.length ≤ MAX_HISTORY_LENGTH) :
    appendToHistory h a = (h ++ [a]).drop (h.length + 1 - MAX_HISTORY_LENGTH) := by
  by_cases hc : MAX_HISTORY_LENGTH < (h ++ [a]).length
  · have hz : h.length + 1 - MAX_HISTORY_LENGTH = 1 := by
      simp only [List.length_append, List.length_cons, List.length_nil] at hc
      omega
    rw [appendToHistory, if_pos hc, hz]
  · rw [appendToHistory, if_neg hc]
    simp only [List.length_append, List.length_cons, List.length_nil] at hc
    have hz : h.length + 1 - MAX_HISTORY_LENGTH = 0 := by omega
    rw [hz, List.drop_zero]

theorem appendToHistory_length_eq (h : List ActionData) (a : ActionData)
    (hh : h.length ≤ MAX_HISTORY_LENGTH) :
    (appendToHistory h a).length = h.length + 1 - (h.length + 1 - MAX_HISTORY_LENGTH) := by
  rw [appendToHistory_eq_drop h a hh, List.length_drop]
  simp

/-- Folding the capped append over a whole list of submissions keeps exactly a
suffix: everything but the overflow from the front. -/
theorem foldl_appendToHistory (l : List ActionData) : ∀ (h : List ActionData),
    h.length ≤ MAX_HISTORY_LENGTH →
    l.foldl appendToHistory h = (h ++ l).drop (h.length + l.length - MAX_HISTORY_LENGTH) := by
  induction l with
  | nil =>
    intro h hh
    simp only [List.foldl_nil, List.append_nil, List.length_nil, Nat.add_zero]
    have hz : h.length - MAX_HISTORY_LENGTH = 0 := by omega
    rw [hz, List.drop_zero]
  | cons a t ih =>
    intro h hh
    simp only [List.foldl_cons]
    rw [ih (appendToHistory h a) (appendToHistory_length_le h a hh)]
    have hle : h.length + 1 - MAX_HISTORY_LENGTH ≤ (h ++ [a]).length := by
      simp only [List.length_append, List.length_cons, List.length_nil]
      omega
    have h1 : appendToHistory h a ++ t =
        (h ++ (a :: t)).drop (h.length + 1 - MAX_HISTORY_LENGTH) := by
      rw [appendToHistory_eq_drop h a hh, ← List.drop_append_of_le_length hle,
        List.append_assoc]
      rfl
    rw [h1, appendToHistory_length_eq h a hh, List.drop_drop]
    have heq : (h.length + 1 - MAX_HISTORY_LENGTH) +
        (h.length + 1 - (h.length + 1 - MAX_HISTORY_LENGTH) + t.length - MAX_HISTORY_LENGTH) =
        h.length + (a :: t).length - MAX_HISTORY_LENGTH := by
      simp only [List.length_cons]
      omega
    rw [heq]

theorem serverRun_cons (st : ServerState) (e : ServerEvent) (es : List ServerEvent) :
    serverRun st (e :: es) = serverRun (serverStep st e).1 es := rfl

/-- Submissions from one session only fold the capped append over the history
and leave the session list unchanged. -/
theorem serverRun_submits (actions : List ActionData) : ∀ (st : ServerState) (s0 : Nat),
    serverRun st (actions.map (ServerEvent.drawingAction s0)) =
      { drawingActionsHistory := actions.foldl appendToHistory st.drawingActionsHistory,
        sessions := st.sessions } := by
  induction actions with
  | nil => intro st s0; rfl
  | cons a t ih =>
    intro st s0
    simp only [List.map_cons, serverRun_cons, List.foldl_cons]
    exact ih _ s0

theorem serverStep_connect (st : ServerState) (sid : Nat) :
    serverStep st (ServerEvent.connect sid) =
      ({ st with sessions := st.sessions ++ [sid] },
       if 0 < st.drawingActionsHistory.length then
         [{ recipient := sid,
            payload := MsgPayload.initialDrawingHistory st.drawingActionsHistory }]
       else []) := rfl

/-- C1: after one session submits any sequence of actions, a later-connecting
session receives, in the one message emitted at its connect, exactly the last
`min(N, 200)` of those actions in submission order, addressed to it alone, and
no message at all when the history is empty. -/
theorem late_joiner_replay (s0 s1 : Nat) (actions : List ActionData) :
    ((serverStep (serverRun initialServerState
        (ServerEvent.connect s0 :: actions.map (ServerEvent.drawingAction s0)))
        (ServerEvent.connect s1)).2 =
      if actions = [] then []
      else [{ recipient := s1,
              payload := MsgPayload.initialDrawingHistory
                (actions.drop (actions.length - MAX_HISTORY_LENGTH)) }]) ∧
    (actions.drop (actions.length - MAX_HISTORY_LENGTH)).length =
      min actions.length MAX_HISTORY_LENGTH ∧
    actions.take (actions.length - MAX_HISTORY_LENGTH) ++
      actions.drop (actions.length - MAX_HISTORY_LENGTH) = actions := by
  have hM : MAX_HISTORY_LENGTH = 200 := rfl
  have hrun : serverRun initialServerState
      (ServerEvent.connect s0 :: actions.map (ServerEvent.drawingAction s0)) =
      { drawingActionsHistory :=
          actions.drop (actions.length - MAX_HISTORY_LENGTH), sessions := [s0] } := by
    rw [serverRun_cons]
    rw [serverRun_submits actions (serverStep initialServerState (ServerEvent.connect s0)).1 s0]
    have hh : (serverStep initialServerState (ServerEvent.connect s0)).1 =
        { drawingActionsHistory := [], sessions := [s0] } := rfl
    rw [hh]
    have hfold := foldl_appendToHistory actions [] (by simp)
    simp only [List.nil_append, List.length_nil, Nat.zero_add] at hfold
    simp only [hfold]
  rw [hrun]
  refine ⟨?_, ?_, List.take_append_drop _ _⟩
  · by_cases he : actions = []
    · subst he
      simp [serverStep]
    · have hlen : 0 < (actions.drop (actions.length - MAX_HISTORY_LENGTH)).length := by
        rw [List.length_drop]
        have : 0 < actions.length := List.length_pos.mpr he
        omega
      rw [if_neg he, serverStep_connect]
      exact if_pos hlen
  · rw [List.length_drop]
    rcases le_or_lt actions.length MAX_HISTORY_LENGTH with hle | hlt
    · rw [min_eq_left hle]
      omega
    · rw [min_eq_right hlt.le]
      omega

/-- C2: a submitted action and a synthesized clear are broadcast, carrying that
very action, to every other connected session and never back to the sender. -/
theorem broadcast_excludes_sender (st : ServerState) (sid : Nat) (d : ActionData) :
    ((serverStep st (ServerEvent.drawingAction sid d)).2.all
      (fun m => m.recipient != sid && m.payload == MsgPayload.drawingActionMsg d) = true) ∧
    ((serverStep st (ServerEvent.clearCanvas sid)).2.all
      (fun m => m.recipient != sid && m.payload == MsgPayload.drawingActionMsg clearAction)
        = true) ∧
    (st.sessions.all (fun s => s == sid ||
      (serverStep st (ServerEvent.drawingAction sid d)).2.any (fun m => m.recipient == s))
        = true) ∧
    (st.sessions.all (fun s => s == sid ||
      (serverStep st (ServerEvent.clearCanvas sid)).2.any (fun m => m.recipient == s))
        = true) := by
  simp only [serverStep]
  refine ⟨?_, ?_, ?_, ?_⟩
  · rw [List.all_eq_true]
    intro m hm
    rcases List.mem_map.mp hm with ⟨s, hs, rfl⟩
    rcases List.mem_filter.mp hs with ⟨_, hne⟩
    simp [hne]
  · rw [List.all_eq_true]
    intro m hm
    rcases List.mem_map.mp hm with ⟨s, hs, rfl⟩
    rcases List.mem_filter.mp hs with ⟨_, hne⟩
    simp [hne]
  · rw [List.all_eq_true]
    intro s hs
    by_cases hss : s = sid
    · subst hss
      simp
    · rw [Bool.or_eq_true]
      right
      rw [List.any_eq_true]
      refine ⟨{ recipient := s, payload := MsgPayload.drawingActionMsg d }, ?_, by simp⟩
      rw [List.mem_map]
      exact ⟨s, List.mem_filter.mpr ⟨hs, by simp [hss]⟩, rfl⟩
  · rw [List.all_eq_true]
    intro s hs
    by_cases hss : s = sid
    · subst hss
      simp
    · rw [Bool.or_eq_true]
      right
      rw [List.any_eq_true]
      refine ⟨{ recipient := s, payload := MsgPayload.drawingActionMsg clearAction }, ?_, by simp⟩
      rw [List.mem_map]
      exact ⟨s, List.mem_filter.mpr ⟨hs, by simp [hss]⟩, rfl⟩

/-- C3: each processed message keeps the history length at most 200, evicts the
oldest entry exactly on overflow, and preserves arrival order: the new history
is the old one with the event's action appended and just the overflow dropped
from the front. -/
theorem history_invariant (st : ServerState) (e : ServerEvent)
    (h : st.drawingActionsHistory.length ≤ MAX_HISTORY_LENGTH) :
    ((serverStep st e).1.drawingActionsHistory.length ≤ MAX_HISTORY_LENGTH) ∧
    ((serverStep st e).1.drawingActionsHistory =
      match e with
      | ServerEvent.drawingAction _ d =>
        (st.drawingActionsHistory ++ [d]).drop
          (st.drawingActionsHistory.length + 1 - MAX_HISTORY_LENGTH)
      | ServerEvent.clearCanvas _ =>
        (st.drawingActionsHistory ++ [clearAction]).drop
          (st.drawingActionsHistory.length + 1 - MAX_HISTORY_LENGTH)
      | _ => st.drawingActionsHistory) := by
  cases e with
  | connect sid => exact ⟨h, rfl⟩
  | drawingAction sid d =>
    exact ⟨appendToHistory_length_le _ _ h, appendToHistory_eq_drop _ _ h⟩
  | clearCanvas sid =>
    exact ⟨appendToHistory_length_le _ _ h, appendToHistory_eq_drop _ _ h⟩
  | disconnect sid => exact ⟨h, rfl⟩

/-- Witness for C3 at the empty server state processing one submission. -/
theorem history_invariant_witness :
    initialServerState.drawingActionsHistory.length ≤ MAX_HISTORY_LENGTH ∧
    (((serverStep initialServerState
        (ServerEvent.drawingAction 0 clearAction)).1.drawingActionsHistory.length ≤
          MAX_HISTORY_LENGTH) ∧
     ((serverStep initialServerState
        (ServerEvent.drawingAction 0 clearAction)).1.drawingActionsHistory =
       (initialServerState.drawingActionsHistory ++ [clearAction]).drop
         (initialServerState.drawingActionsHistory.length + 1 - MAX_HISTORY_LENGTH))) :=
  ⟨by decide,
   history_invariant initialServerState (ServerEvent.drawingAction 0 clearAction) (by decide)⟩

/-! ### Canvas client: drawing context and surface operations -/

/-- The two compositing modes the component uses (`source-over`,
`destination-out`). -/
inductive CompositeOp
  | sourceOver
  | destinationOut
deriving Repr, DecidableEq

/-- Mutable settings of the 2d context that the component assigns. -/
structure CtxState where
  strokeStyle : String
  fillStyle : String
  lineWidth : Int
  lineCap : String
  font : String
  globalCompositeOperation : CompositeOp
deriving Repr, DecidableEq

/-- Primitive operations issued to the external raster surface.  Coordinates
are kept optional: a missing field of an action is forwarded as `none` (the JS
code passes `undefined` through, which the canvas treats as non-finite). -/
inductive SurfaceOp
  | beginPath
  | moveTo (x y : Option Int)
  | lineTo (x y : Option Int)
  | stroke
  | closePath
  | strokeRect (x y w h : Option Int)
  | arc (x y r : Option Int)
  | fill
  | fillText (s : Option String) (x y : Option Int)
  | clearRect
  | drawImage (snapshot : String)
deriving Repr, DecidableEq

/-- The component state the interpreter reads: current color, line width and
eraser width. -/
structure CanvasSettings where
  color : String
  lineWidth : Int
  eraserWidth : Int
deriving Repr, DecidableEq

/-- The condition under which `applyDrawingAction` switches to subtractive
compositing: `data.tool === 'eraser' || (data.type === 'eraser' && data.tool
!== 'pen')`. -/
def isEraserMode (data : ActionData) : Bool :=
  data.tool == some "eraser" || (data.type == some "eraser" && data.tool != some "pen")

/-- The action interpreter `applyDrawingAction`: sets the context fields (with
JS `||` defaults), switches to `destination-out` for eraser actions, issues the
surface operations of the action type, and restores the saved compositing mode
afterwards.  Each emitted operation is paired with the context state in force
when it is issued.  The eraser-type arc radius divides by two; JS division is
real-valued, modelled here as integer division (no claim depends on the
value). -/
def applyDrawingAction (s : CanvasSettings) (data : ActionData) (ctx : CtxState) :
    CtxState × List (CtxState × SurfaceOp) :=
  let ctx1 : CtxState :=
    { ctx with
      strokeStyle := jsOrStr data.color s.color,
      fillStyle := jsOrStr data.color s.color,
      lineWidth := jsOrInt data.lineWidth
        (if data.tool == some "eraser" then s.eraserWidth else s.lineWidth),
      lineCap := "round",
      font := jsOrStr data.font "16px Arial" }
  let originalCompositeOperation := ctx1.globalCompositeOperation
  let ctx2 : CtxState :=
    if isEraserMode data then
      { ctx1 with
        globalCompositeOperation := CompositeOp.destinationOut,
        lineWidth := jsOrInt data.lineWidth s.eraserWidth }
    else ctx1
  let ops : List SurfaceOp :=
    if data.type == some "start" then
      [SurfaceOp.beginPath, SurfaceOp.moveTo data.x data.y]
    else if data.type == some "draw" then
      [SurfaceOp.lineTo data.x data.y, SurfaceOp.stroke]
    else if data.type == some "stop" then
      [SurfaceOp.closePath]
    else if data.type == some "rect" then
      [SurfaceOp.strokeRect data.x data.y data.width data.height]
    else if data.type == some "circle" then
      [SurfaceOp.beginPath, SurfaceOp.arc data.x data.y data.radius, SurfaceOp.stroke]
    else if data.type == some "text" then
      [SurfaceOp.fillText data.text data.x data.y]
    else if data.type == some "eraser" then
      [SurfaceOp.beginPath,
       SurfaceOp.arc data.x data.y (some (jsOrInt data.lineWidth s.eraserWidth / 2)),
       SurfaceOp.fill]
    else if data.type == some "clear" then
      [SurfaceOp.clearRect]
    else []
  let ctx3 : CtxState :=
    if isEraserMode data then
      { ctx2 with globalCompositeOperation := originalCompositeOperation }
    else ctx2
  (ctx3, ops.map (fun op => (ctx2, op)))

/-- Compositing semantics of the external raster surface for one pixel covered
by a paint operation: normal mode replaces the pixel with the paint color,
subtractive mode clears it to transparent (`none`). -/
def compositePixel : CompositeOp → Option String → String → Option String
  | CompositeOp.sourceOver, _, c => some c
  | CompositeOp.destinationOut, _, _ => none

/-- Path semantics of the external raster surface: the current point after an
operation.  Path operations whose coordinates are missing (non-finite in JS)
are ignored by the canvas; `beginPath` discards the current point. -/
def pathStep (p : Option (Int × Int)) : SurfaceOp → Option (Int × Int)
  | SurfaceOp.moveTo (some x) (some y) => some (x, y)
  | SurfaceOp.moveTo _ _ => p
  | SurfaceOp.lineTo (some x) (some y) => some (x, y)
  | SurfaceOp.lineTo _ _ => p
  | SurfaceOp.beginPath => none
  | _ => p

/-- The current point after running a whole list of issued operations. -/
def pathRun (ops : List (CtxState × SurfaceOp)) : Option (Int × Int) :=
  ops.foldl (fun p op => pathStep p op.2) none

/-! ### Local history manager -/

/-- Client-side snapshot history: the `history` array of data URLs and the
`historyStep` cursor (`-1` before anything is saved). -/
structure HistoryState where
  history : List String
  historyStep : Int
deriving Repr, DecidableEq

/-- `saveHistory`: slice the history to `[0..historyStep]`, push the snapshot,
point the cursor at the new last index. -/
def saveHistory (st : HistoryState) (dataURL : String) : HistoryState :=
  let newHistory := st.history.take (st.historyStep + 1).toNat ++ [dataURL]
  { history := newHistory, historyStep := (newHistory.length : Int) - 1 }

/-- `handleUndo`: step the cursor back only when it is positive. -/
def handleUndo (st : HistoryState) : HistoryState :=
  if 0 < st.historyStep then { st with historyStep := st.historyStep - 1 } else st

/-- `handleRedo`: step the cursor forward only when it is before the last
index. -/
def handleRedo (st : HistoryState) : HistoryState :=
  if st.historyStep < (st.history.length : Int) - 1 then
    { st with historyStep := st.historyStep + 1 }
  else st

/-- `restoreHistory`: when the cursor is in range, clear the surface and draw
the snapshot stored at the cursor; otherwise do nothing. -/
def restoreHistoryOps (st : HistoryState) : List SurfaceOp :=
  if 0 ≤ st.historyStep ∧ st.historyStep < (st.history.length : Int) then
    [SurfaceOp.clearRect, SurfaceOp.drawImage (st.history.getD st.historyStep.toNat "")]
  else []

/-- A message the client can emit on the socket. -/
inductive ClientEmit
  | drawingAction (data : ActionData)
  | clearCanvas
deriving Repr, DecidableEq

/-- Result of one local operation: the next history state, the surface
operations it causes, and the socket messages it emits. -/
structure LocalOpResult where
  state : HistoryState
  surface : List SurfaceOp
  emits : List ClientEmit
deriving Repr, DecidableEq

/-- An undo click: `handleUndo`, then the restore effect, which reruns only
when the cursor actually moved.  The handler contains no socket emission. -/
def handleUndoOp (st : HistoryState) : LocalOpResult :=
  let st2 := handleUndo st
  { state := st2,
    surface := if st2.historyStep == st.historyStep then [] else restoreHistoryOps st2,
    emits := [] }

/-- A redo click: `handleRedo`, then the restore effect, which reruns only
when the cursor actually moved.  The handler contains no socket emission. -/
def handleRedoOp (st : HistoryState) : LocalOpResult :=
  let st2 := handleRedo st
  { state := st2,
    surface := if st2.historyStep == st.historyStep then [] else restoreHistoryOps st2,
    emits := [] }

theorem handleRedo_saveHistory (st : HistoryState) (snap : String) :
    handleRedo (saveHistory st snap) = saveHistory st snap := by
  simp [handleRedo, saveHistory]

theorem handleRedo_history (st : HistoryState) :
    (handleRedo st).history = st.history := by
  unfold handleRedo
  split <;> rfl

/-- C5: `saveHistory` truncates the history to the indices up to the cursor,
appends the snapshot and points the cursor at the new last index; consequently
a redo right after any push — in particular after an undo followed by a new
push — changes neither the state nor the surface. -/
theorem push_truncates_redo_branch (st : HistoryState) (snap : String) :
    ((saveHistory st snap).history =
      st.history.take (st.historyStep + 1).toNat ++ [snap]) ∧
    ((saveHistory st snap).historyStep =
      ((saveHistory st snap).history.length : Int) - 1) ∧
    (handleRedo (saveHistory (handleUndo st) snap) = saveHistory (handleUndo st) snap) ∧
    ((handleRedoOp (saveHistory (handleUndo st) snap)).state =
      saveHistory (handleUndo st) snap) ∧
    ((handleRedoOp (saveHistory (handleUndo st) snap)).surface = []) := by
  refine ⟨rfl, rfl, handleRedo_saveHistory _ _, ?_, ?_⟩
  · show handleRedo (saveHistory (handleUndo st) snap) = saveHistory (handleUndo st) snap
    exact handleRedo_saveHistory _ _
  · show (if (handleRedo (saveHistory (handleUndo st) snap)).historyStep ==
        (saveHistory (handleUndo st) snap).historyStep then ([] : List SurfaceOp)
      else restoreHistoryOps (handleRedo (saveHistory (handleUndo st) snap))) = []
    rw [handleRedo_saveHistory _ _]
    simp

/-- The cursor invariant of the snapshot history: `-1` exactly on the empty
sequence, otherwise a valid index. -/
def HistInv (st : HistoryState) : Prop :=
  (st.history = [] → st.historyStep = -1) ∧
  (st.history ≠ [] → 0 ≤ st.historyStep ∧ st.historyStep < (st.history.length : Int))

/-- C6: the cursor invariant is preserved by push, undo and redo, and an undo
at cursor 0 or a redo at the last index changes neither the state nor the
surface and emits nothing. -/
theorem cursor_invariant_preserved (st : HistoryState) (snap : String) (h : HistInv st) :
    HistInv (saveHistory st snap) ∧ HistInv (handleUndo st) ∧ HistInv (handleRedo st) ∧
    (st.historyStep = 0 →
      handleUndoOp st = { state := st, surface := [], emits := [] }) ∧
    (st.historyStep = (st.history.length : Int) - 1 →
      handleRedoOp st = { state := st, surface := [], emits := [] }) := by
  obtain ⟨hemp, hne⟩ := h
  refine ⟨⟨?_, ?_⟩, ⟨?_, ?_⟩, ⟨?_, ?_⟩, ?_, ?_⟩
  · intro hc
    exact absurd hc (by simp [saveHistory])
  · intro _
    simp only [saveHistory, List.length_append, List.length_cons, List.length_nil]
    constructor <;> [omega; omega]
  · intro hc
    unfold handleUndo at hc ⊢
    by_cases hs : 0 < st.historyStep
    · rw [if_pos hs] at hc ⊢
      have := hemp hc
      omega
    · rw [if_neg hs] at hc ⊢
      exact hemp hc
  · intro hc
    unfold handleUndo at hc ⊢
    by_cases hs : 0 < st.historyStep
    · rw [if_pos hs] at hc ⊢
      have := hne hc
      simp only at this ⊢
      omega
    · rw [if_neg hs] at hc ⊢
      exact hne hc
  · intro hc
    unfold handleRedo at hc ⊢
    by_cases hs : st.historyStep < (st.history.length : Int) - 1
    · rw [if_pos hs] at hc ⊢
      have hc2 : st.history = [] := hc
      have hstep := hemp hc2
      exfalso
      rw [hc2] at hs
      simp only [List.length_nil] at hs
      omega
    · rw [if_neg hs] at hc ⊢
      exact hemp hc
  · intro hc
    unfold handleRedo at hc ⊢
    by_cases hs : st.historyStep < (st.history.length : Int) - 1
    · rw [if_pos hs] at hc ⊢
      have := hne hc
      simp only at this ⊢
      omega
    · rw [if_neg hs] at hc ⊢
      exact hne hc
  · intro hz
    have hu : handleUndo st = st := by
      unfold handleUndo
      rw [if_neg (by omega)]
    unfold handleUndoOp
    rw [hu]
    simp
  · intro hl
    have hr : handleRedo st = st := by
      unfold handleRedo
      rw [if_neg (by omega)]
    unfold handleRedoOp
    rw [hr]
    simp

/-- Witness for C6 at a one-snapshot history with the cursor at 0, which is
also the last index. -/
theorem cursor_invariant_preserved_witness :
    HistInv { history := ["blank"], historyStep := 0 } ∧
    (HistInv (saveHistory { history := ["blank"], historyStep := 0 } "next") ∧
     HistInv (handleUndo { history := ["blank"], historyStep := 0 }) ∧
     HistInv (handleRedo { history := ["blank"], historyStep := 0 }) ∧
     (({ history := ["blank"], historyStep := 0 } : HistoryState).historyStep = 0 →
       handleUndoOp { history := ["blank"], historyStep := 0 } =
         { state := { history := ["blank"], historyStep := 0 }, surface := [], emits := [] }) ∧
     (({ history := ["blank"], historyStep := 0 } : HistoryState).historyStep =
         ((({ history := ["blank"], historyStep := 0 } : HistoryState).history.length : Int) - 1) →
       handleRedoOp { history := ["blank"], historyStep := 0 } =
         { state := { history := ["blank"], historyStep := 0 }, surface := [], emits := [] })) :=
  ⟨by constructor <;> simp [HistInv],
   cursor_invariant_preserved { history := ["blank"], historyStep := 0 } "next"
     (by constructor <;> simp [HistInv])⟩

/-- C9: undo and redo emit no socket message in any state, and a redo that
moves the cursor restores the surface from a snapshot stored in the history,
never by re-submitting an action. -/
theorem undo_redo_purely_local (st : HistoryState) :
    ((handleUndoOp st).emits = []) ∧ ((handleRedoOp st).emits = []) ∧
    ((handleRedoOp st).surface = [] ∨
      ∃ snap ∈ st.history,
        (handleRedoOp st).surface = [SurfaceOp.clearRect, SurfaceOp.drawImage snap]) := by
  refine ⟨rfl, rfl, ?_⟩
  have hsurf : (handleRedoOp st).surface =
      (if (handleRedo st).historyStep == st.historyStep then ([] : List SurfaceOp)
       else restoreHistoryOps (handleRedo st)) := rfl
  by_cases hb : ((handleRedo st).historyStep == st.historyStep) = true
  · left
    rw [hsurf, if_pos hb]
  · by_cases hr : 0 ≤ (handleRedo st).historyStep ∧
        (handleRedo st).historyStep < ((handleRedo st).history.length : Int)
    · right
      have hrr := hr
      rw [handleRedo_history] at hrr
      have hn : (handleRedo st).historyStep.toNat < st.history.length := by omega
      refine ⟨st.history.getD (handleRedo st).historyStep.toNat "", ?_, ?_⟩
      · rw [List.getD_eq_getElem st.history "" hn]
        exact List.getElem_mem hn
      · rw [hsurf, if_neg hb]
        unfold restoreHistoryOps
        rw [if_pos hr, handleRedo_history]
    · left
      rw [hsurf, if_neg hb]
      unfold restoreHistoryOps
      rw [if_neg hr]

/-! ### Interpreter defaults (malformed actions) -/

/-- Component settings used for concrete evaluations: the initial `useState`
values of the component. -/
def defaultSettings : CanvasSettings := { color := "#000000", lineWidth := 5, eraserWidth := 10 }

/-- A fresh 2d context as the component configures it. -/
def initialCtx : CtxState :=
  { strokeStyle := "#000000", fillStyle := "#000000", lineWidth := 5,
    lineCap := "round", font := "16px Arial",
    globalCompositeOperation := CompositeOp.sourceOver }

/-- The spec's reading of the interpreter on malformed input: every missing
numeric field replaced by 0 before interpreting. -/
def fillZeroNumerics (d : ActionData) : ActionData :=
  { d with x := some (d.x.getD 0), y := some (d.y.getD 0),
           width := some (d.width.getD 0), height := some (d.height.getD 0),
           radius := some (d.radius.getD 0) }

/-- A start action whose coordinates are missing. -/
def startMissingCoords : ActionData := { type := some "start" }

/-- C4 counterexample: the interpreter does not default missing numeric fields
to 0.  On a start action without coordinates it forwards them absent, the
surface ignores the move and the path has no current point; under the claimed
zero-defaulting the current point would become the origin, an observably
different surface state. -/
theorem missing_numerics_not_zero_defaulted :
    pathRun (applyDrawingAction defaultSettings startMissingCoords initialCtx).2 = none ∧
    pathRun (applyDrawingAction defaultSettings
      (fillZeroNumerics startMissingCoords) initialCtx).2 = some (0, 0) ∧
    (applyDrawingAction defaultSettings startMissingCoords initialCtx ≠
     applyDrawingAction defaultSettings (fillZeroNumerics startMissingCoords) initialCtx) := by
  refine ⟨rfl, rfl, ?_⟩
  decide

/-- C4 amended: a missing color defaults the stroke and fill styles to the
current color, a missing line width defaults to the current eraser or pen
width, and the interpreter is total — but missing numeric fields are forwarded
absent, not replaced by 0 (for a start action the move is issued with the
action's own optional coordinates). -/
theorem malformed_action_defaults (s : CanvasSettings) (d : ActionData) (ctx : CtxState)
    (hc : d.color = none) (hw : d.lineWidth = none) :
    ((applyDrawingAction s d ctx).1.strokeStyle = s.color) ∧
    ((applyDrawingAction s d ctx).1.fillStyle = s.color) ∧
    ((applyDrawingAction s d ctx).1.lineWidth =
      if isEraserMode d then s.eraserWidth else s.lineWidth) ∧
    (d.type = some "start" →
      (applyDrawingAction s d ctx).2.map Prod.snd =
        [SurfaceOp.beginPath, SurfaceOp.moveTo d.x d.y]) := by
  by_cases he : isEraserMode d = true
  · simp only [applyDrawingAction, he, if_true, hc, hw, jsOrStr, jsOrInt]
    refine ⟨trivial, trivial, trivial, ?_⟩
    intro ht
    simp [ht]
  · have he2 : isEraserMode d = false := by
      rwa [Bool.not_eq_true] at he
    have htool : (d.tool == some "eraser") = false := by
      unfold isEraserMode at he2
      exact (Bool.or_eq_false_iff.mp he2).1
    simp only [applyDrawingAction, he2, hc, hw, jsOrStr, jsOrInt, htool, Bool.false_eq_true,
      if_false]
    refine ⟨trivial, trivial, trivial, ?_⟩
    intro ht
    simp [ht]

/-- Witness for C4's amended theorem at the concrete start action with missing
coordinates. -/
theorem malformed_action_defaults_witness :
    startMissingCoords.color = none ∧ startMissingCoords.lineWidth = none ∧
    (((applyDrawingAction defaultSettings startMissingCoords initialCtx).1.strokeStyle =
        defaultSettings.color) ∧
     ((applyDrawingAction defaultSettings startMissingCoords initialCtx).1.fillStyle =
        defaultSettings.color) ∧
     ((applyDrawingAction defaultSettings startMissingCoords initialCtx).1.lineWidth =
        if isEraserMode startMissingCoords then defaultSettings.eraserWidth
        else defaultSettings.lineWidth) ∧
     (startMissingCoords.type = some "start" →
       (applyDrawingAction defaultSettings startMissingCoords initialCtx).2.map Prod.snd =
         [SurfaceOp.beginPath, SurfaceOp.moveTo startMissingCoords.x startMissingCoords.y])) :=
  ⟨rfl, rfl,
   malformed_action_defaults defaultSettings startMissingCoords initialCtx rfl rfl⟩

/-! ### Reconciler: inbound replay -/

/-- Observable steps of a client handler: toggling the re-entrancy flag,
issuing a surface operation (with the context in force), pushing a snapshot. -/
inductive ClientStep
  | setApplying (b : Bool)
  | surface (op : CtxState × SurfaceOp)
  | pushSnapshot
deriving Repr, DecidableEq

/-- Apply a list of actions in order, threading the context and concatenating
the issued surface operations. -/
def applyAll (s : CanvasSettings) (ctx : CtxState) :
    List ActionData → CtxState × List (CtxState × SurfaceOp)
  | [] => (ctx, [])
  | a :: rest =>
    let r1 := applyDrawingAction s a ctx
    let r2 := applyAll s r1.1 rest
    (r2.1, r1.2 ++ r2.2)

/-- Outcome of the `initial-drawing-history` handler. -/
structure ReplayResult where
  ctx : CtxState
  hist : HistoryState
  isApplyingRemoteAction : Bool
  trace : List ClientStep
deriving Repr, DecidableEq

/-- The `initial-drawing-history` handler: raise the re-entrancy flag, blank
the surface, apply every replayed action in order, lower the flag, then save
one snapshot of the reconstructed state. -/
def onInitialDrawingHistory (s : CanvasSettings) (ctx : CtxState) (hist : HistoryState)
    (actions : List ActionData) (dataURL : String) : ReplayResult :=
  let applied := applyAll s ctx actions
  { ctx := applied.1,
    hist := saveHistory hist dataURL,
    isApplyingRemoteAction := false,
    trace := ClientStep.setApplying true :: ClientStep.surface (ctx, SurfaceOp.clearRect) ::
      (applied.2.map ClientStep.surface ++
       [ClientStep.setApplying false, ClientStep.pushSnapshot]) }

/-- C7: on an inbound replay the client raises the remote-application flag,
blanks the surface, applies every replayed action in order, pushes exactly one
snapshot for the whole sequence, and finishes with the flag down (Idle). -/
theorem replay_single_push (s : CanvasSettings) (ctx : CtxState) (hist : HistoryState)
    (actions : List ActionData) (dataURL : String) :
    ((onInitialDrawingHistory s ctx hist actions dataURL).trace.countP
       (fun ev => ev == ClientStep.pushSnapshot) = 1) ∧
    ((onInitialDrawingHistory s ctx hist actions dataURL).isApplyingRemoteAction = false) ∧
    ((onInitialDrawingHistory s ctx hist actions dataURL).hist = saveHistory hist dataURL) ∧
    ((onInitialDrawingHistory s ctx hist actions dataURL).trace =
      ClientStep.setApplying true :: ClientStep.surface (ctx, SurfaceOp.clearRect) ::
        ((applyAll s ctx actions).2.map ClientStep.surface ++
         [ClientStep.setApplying false, ClientStep.pushSnapshot])) := by
  refine ⟨?_, rfl, rfl, rfl⟩
  have hmap : ((applyAll s ctx actions).2.map ClientStep.surface).countP
      (fun ev => ev == ClientStep.pushSnapshot) = 0 := by
    rw [List.countP_eq_zero]
    intro a ha
    rcases List.mem_map.mp ha with ⟨op, _, rfl⟩
    simp
  show (ClientStep.setApplying true :: ClientStep.surface (ctx, SurfaceOp.clearRect) ::
      ((applyAll s ctx actions).2.map ClientStep.surface ++
       [ClientStep.setApplying false, ClientStep.pushSnapshot])).countP
        (fun ev => ev == ClientStep.pushSnapshot) = 1
  rw [List.countP_cons, List.countP_cons, List.countP_append, hmap]
  simp

/-! ### Reconciler: local gestures -/

/-- The component state a pointer gesture reads and writes. -/
structure GestureState where
  isDrawing : Bool
  tool : String
  color : String
  lineWidth : Int
  eraserWidth : Int
  startPos : Int × Int
  currentPos : Int × Int
  previewMode : Bool
  isApplyingRemoteAction : Bool
  hist : HistoryState
  ctx : CtxState
deriving Repr, DecidableEq

/-- Result of one gesture handler: the next component state, the surface
operations issued, and the socket messages emitted. -/
structure GestureResult where
  state : GestureState
  surface : List SurfaceOp
  emits : List ClientEmit
deriving Repr, DecidableEq

/-- The `startDrawing` handler.  `promptResult` is the browser prompt outcome
for the text tool (`none` = cancelled); `dataURL` is the snapshot exported if
the handler saves history.  The guard returns immediately while a remote
action is being applied; the text branch runs before `setIsDrawing(true)` and
does nothing unless the prompt string is truthy. -/
def startDrawing (st : GestureState) (x y : Int) (promptResult : Option String)
    (dataURL : String) : GestureResult :=
  if st.isApplyingRemoteAction then { state := st, surface := [], emits := [] }
  else
    let currentTool := st.tool
    let currentLineWidth := if currentTool = "eraser" then st.eraserWidth else st.lineWidth
    let currentColor := st.color
    let st1 : GestureState :=
      { st with
        startPos := (x, y),
        currentPos := (x, y),
        ctx := { st.ctx with
                 strokeStyle := currentColor,
                 fillStyle := currentColor,
                 lineWidth := currentLineWidth } }
    if currentTool = "text" then
      match promptResult with
      | some t =>
        if t = "" then { state := st1, surface := [], emits := [] }
        else
          { state := { st1 with
                       ctx := { st1.ctx with font := "16px Arial" },
                       hist := saveHistory st1.hist dataURL },
            surface := [SurfaceOp.fillText (some t) (some x) (some y)],
            emits := [ClientEmit.drawingAction
              { type := some "text", text := some t, x := some x, y := some y,
                color := some currentColor, lineWidth := some currentLineWidth,
                font := some "16px Arial", tool := some currentTool }] }
      | none => { state := st1, surface := [], emits := [] }
    else
      let st2 : GestureState := { st1 with isDrawing := true }
      if currentTool = "pen" ∨ currentTool = "eraser" then
        let st3 : GestureState :=
          if currentTool = "eraser" then
            { st2 with ctx := { st2.ctx with
                globalCompositeOperation := CompositeOp.destinationOut } }
          else st2
        { state := st3,
          surface := [SurfaceOp.beginPath, SurfaceOp.moveTo (some x) (some y)],
          emits := [ClientEmit.drawingAction
            { type := some "start", x := some x, y := some y,
              color := some currentColor, lineWidth := some currentLineWidth,
              tool := some currentTool }] }
      else if currentTool = "rectangle" ∨ currentTool = "circle" then
        { state := { st2 with previewMode := true }, surface := [], emits := [] }
      else { state := st2, surface := [], emits := [] }

/-- Integer approximation of `Math.sqrt` for the circle radius (the JS value
is real-valued; no claim depends on it). -/
def intSqrt (n : Int) : Int := Int.ofNat (Nat.sqrt n.toNat)

/-- The `stopDrawing` handler: guarded by the remote-application flag, and by
`isDrawing` except for the shape tools; each tool branch updates the context,
issues its final surface operations and emits its final action; then preview
mode is dropped, one snapshot is saved and the drawing state ends. -/
def stopDrawing (st : GestureState) (x y : Int) (dataURL : String) : GestureResult :=
  if st.isApplyingRemoteAction then { state := st, surface := [], emits := [] }
  else if ¬ st.isDrawing ∧ st.tool ≠ "rectangle" ∧ st.tool ≠ "circle" then
    { state := st, surface := [], emits := [] }
  else
    let currentTool := st.tool
    let currentLineWidth := if currentTool = "eraser" then st.eraserWidth else st.lineWidth
    let currentColor := st.color
    let branch : CtxState × List SurfaceOp × List ClientEmit :=
      if currentTool = "pen" ∨ currentTool = "eraser" then
        (if currentTool = "eraser" then
           { st.ctx with globalCompositeOperation := CompositeOp.sourceOver }
         else st.ctx,
         [SurfaceOp.closePath],
         [ClientEmit.drawingAction { type := some "stop", tool := some currentTool }])
      else if currentTool = "rectangle" then
        ({ st.ctx with strokeStyle := currentColor, lineWidth := currentLineWidth },
         [SurfaceOp.strokeRect (some st.startPos.1) (some st.startPos.2)
            (some (x - st.startPos.1)) (some (y - st.startPos.2))],
         [ClientEmit.drawingAction
           { type := some "rect", x := some st.startPos.1, y := some st.startPos.2,
             width := some (x - st.startPos.1), height := some (y - st.startPos.2),
             color := some currentColor, lineWidth := some currentLineWidth,
             tool := some currentTool }])
      else if currentTool = "circle" then
        ({ st.ctx with strokeStyle := currentColor, lineWidth := currentLineWidth },
         [SurfaceOp.beginPath,
          SurfaceOp.arc (some st.startPos.1) (some st.startPos.2)
            (some (intSqrt ((x - st.startPos.1) ^ 2 + (y - st.startPos.2) ^ 2))),
          SurfaceOp.stroke],
         [ClientEmit.drawingAction
           { type := some "circle", x := some st.startPos.1, y := some st.startPos.2,
             radius := some (intSqrt ((x - st.startPos.1) ^ 2 + (y - st.startPos.2) ^ 2)),
             color := some currentColor, lineWidth := some currentLineWidth,
             tool := some currentTool }])
      else (st.ctx, [], [])
    { state := { st with
                 ctx := branch.1,
                 previewMode := false,
                 hist := saveHistory st.hist dataURL,
                 isDrawing := false },
      surface := branch.2.1,
      emits := branch.2.2 }

/-- C8: an eraser action is interpreted entirely under subtractive compositing
— every operation it issues sees `destination-out`, which makes a covered
pixel transparent, never white — the interpreter restores the entry
compositing mode after the action, and stopping a local eraser gesture resets
the mode to `source-over`, so subtractive compositing does not leak into later
renders. -/
theorem eraser_compositing_restored (s : CanvasSettings) (d : ActionData) (ctx : CtxState)
    (st : GestureState) (x y : Int) (dataURL : String)
    (hd : d.tool = some "eraser") (hstop : st.tool = "eraser")
    (hdrawing : st.isDrawing = true) (hremote : st.isApplyingRemoteAction = false) :
    ((applyDrawingAction s d ctx).1.globalCompositeOperation =
      ctx.globalCompositeOperation) ∧
    ((applyDrawingAction s d ctx).2.all
      (fun p => p.1.globalCompositeOperation == CompositeOp.destinationOut) = true) ∧
    ((stopDrawing st x y dataURL).state.ctx.globalCompositeOperation =
      CompositeOp.sourceOver) ∧
    (∀ prior paint, compositePixel CompositeOp.destinationOut prior paint = none) ∧
    ((none : Option String) ≠ some "#ffffff") := by
  have hm : isEraserMode d = true := by
    simp [isEraserMode, hd]
  refine ⟨?_, ?_, ?_, fun prior paint => rfl, by simp⟩
  · simp [applyDrawingAction, hm]
  · simp only [applyDrawingAction, hm, if_true]
    rw [List.all_eq_true]
    intro p hp
    rcases List.mem_map.mp hp with ⟨op, _, rfl⟩
    simp
  · simp [stopDrawing, hstop, hdrawing, hremote]

/-- A concrete eraser draw action over prior content. -/
def eraserDrawAction : ActionData :=
  { type := some "draw", x := some 20, y := some 20, lineWidth := some 10,
    tool := some "eraser" }

/-- A concrete client state in the middle of a local eraser gesture. -/
def eraserDrawingState : GestureState :=
  { isDrawing := true, tool := "eraser", color := "#000000", lineWidth := 5,
    eraserWidth := 10, startPos := (10, 10), currentPos := (20, 20),
    previewMode := false, isApplyingRemoteAction := false,
    hist := { history := [], historyStep := -1 },
    ctx := { initialCtx with globalCompositeOperation := CompositeOp.destinationOut } }

/-- Witness for C8 at the concrete eraser draw action and eraser gesture. -/
theorem eraser_compositing_restored_witness :
    eraserDrawAction.tool = some "eraser" ∧ eraserDrawingState.tool = "eraser" ∧
    eraserDrawingState.isDrawing = true ∧
    eraserDrawingState.isApplyingRemoteAction = false ∧
    (((applyDrawingAction defaultSettings eraserDrawAction initialCtx).1.globalCompositeOperation
        = initialCtx.globalCompositeOperation) ∧
     ((applyDrawingAction defaultSettings eraserDrawAction initialCtx).2.all
       (fun p => p.1.globalCompositeOperation == CompositeOp.destinationOut) = true) ∧
     ((stopDrawing eraserDrawingState 30 30 "snap").state.ctx.globalCompositeOperation =
       CompositeOp.sourceOver) ∧
     (∀ prior paint, compositePixel CompositeOp.destinationOut prior paint = none) ∧
     ((none : Option String) ≠ some "#ffffff")) :=
  ⟨rfl, rfl, rfl, rfl,
   eraser_compositing_restored defaultSettings eraserDrawAction initialCtx
     eraserDrawingState 30 30 "snap" rfl rfl rfl rfl⟩

/-- C10: with the text tool, a cancelled prompt or an empty string makes the
gesture a complete no-op: nothing is rendered, nothing is emitted, no snapshot
is pushed, and the client stays out of the drawing state. -/
theorem text_prompt_cancel_noop (st : GestureState) (x y : Int) (p : Option String)
    (dataURL : String) (htool : st.tool = "text")
    (hremote : st.isApplyingRemoteAction = false) (hdraw : st.isDrawing = false)
    (hp : p = none ∨ p = some "") :
    ((startDrawing st x y p dataURL).surface = []) ∧
    ((startDrawing st x y p dataURL).emits = []) ∧
    ((startDrawing st x y p dataURL).state.hist = st.hist) ∧
    ((startDrawing st x y p dataURL).state.isDrawing = false) := by
  rcases hp with hp | hp <;> subst hp <;>
    simp [startDrawing, hremote, htool, hdraw]

/-- A concrete idle client state with the text tool selected. -/
def textIdleState : GestureState :=
  { isDrawing := false, tool := "text", color := "#000000", lineWidth := 5,
    eraserWidth := 10, startPos := (0, 0), currentPos := (0, 0), previewMode := false,
    isApplyingRemoteAction := false, hist := { history := [], historyStep := -1 },
    ctx := initialCtx }

/-- Witness for C10 at the concrete idle text-tool state with a cancelled
prompt. -/
theorem text_prompt_cancel_noop_witness :
    textIdleState.tool = "text" ∧ textIdleState.isApplyingRemoteAction = false ∧
    textIdleState.isDrawing = false ∧
    ((none : Option String) = none ∨ (none : Option String) = some "") ∧
    (((startDrawing textIdleState 3 4 none "snap").surface = []) ∧
     ((startDrawing textIdleState 3 4 none "snap").emits = []) ∧
     ((startDrawing textIdleState 3 4 none "snap").state.hist = textIdleState.hist) ∧
     ((startDrawing textIdleState 3 4 none "snap").state.isDrawing = false)) :=
  ⟨rfl, rfl, rfl, Or.inl rfl,
   text_prompt_cancel_noop textIdleState 3 4 none "snap" rfl rfl rfl (Or.inl rfl)⟩
